import Mathlib

/-!
Verification development for the fyne-cross container-engine resolver and the
FreeBSD platform builder.

The definitions below are a shallow embedding of the Go sources:

* the engine resolver (`MakeEngine` and the `Engine` value type), whose host
  interactions (executable lookup on PATH, the version probe of the fixed
  docker path, the kubernetes client check) are modelled as an explicit
  `Host` oracle;
* the `freebsd` command (`freeBSD.Build` and `freeBSD.setupContainerImages`),
  whose external effects (`prepareIcon`, `fynePackage`, `fyneRelease`,
  in-container `image.Run` invocations) are modelled by an outcome oracle
  plus an explicit trace of the calls that were issued.
-/

namespace FyneCross

/-! ## Engine resolver -/

/-- Engine-name constant: empty string requests autodetection. -/
def autodetectEngine : String := ""

/-- Engine-name constant for the docker runtime. -/
def dockerEngine : String := "docker"

/-- Engine-name constant for the podman runtime. -/
def podmanEngine : String := "podman"

/-- Engine-name constant for the kubernetes backend. -/
def kubernetesEngine : String := "kubernetes"

/-- The fixed path probed during autodetection (`binaryPath := "/usr/bin/docker"`). -/
def fixedDockerBinaryPath : String := "/usr/bin/docker"

/-- Engine mirrors the Go struct: a runtime name and a resolved binary path. -/
structure Engine where
  Name : String
  Binary : String
deriving Repr, DecidableEq

def Engine.IsDocker (e : Engine) : Bool := e.Name = dockerEngine

def Engine.IsPodman (e : Engine) : Bool := e.Name = podmanEngine

def Engine.IsKubernetes (e : Engine) : Bool := e.Name = kubernetesEngine

/-- ASCII lowercasing of a string, character by character: the embedding of
`strings.ToLower` as applied to version-probe output. -/
def strToLower (s : String) : String := ⟨s.data.map Char.toLower⟩

/-- Boolean test that the first character list starts the second. -/
def isPrefixOfB : List Char → List Char → Bool
  | [], _ => true
  | _ :: _, [] => false
  | a :: as, b :: bs => a = b && isPrefixOfB as bs

/-- Substring containment on character lists: some tail of `l` starts with `sub`. -/
def listContainsSub (l sub : List Char) : Bool := l.tails.any (fun t => isPrefixOfB sub t)

/-- The embedding of `strings.Contains`. -/
def strContains (s sub : String) : Bool := listContainsSub s.data sub.data

/-- Host-state oracle for the collaborators `MakeEngine` consumes, which are
outside the given sources: `execabs.LookPath` is `lookPath`; the captured
output and success of running the fixed docker path with `--version`
(`execabs.Command(binaryPath, "--version").Output()`) are `probeOut` and
`probeOK`; the result of `checkKubernetesClient` is `kubeErr` (`some` an error
message on failure, `none` on success). -/
structure Host where
  lookPath : String → Option String
  probeOut : String
  probeOK : Bool
  kubeErr : Option String

/-- MakeEngine returns a new container engine; the empty string autodetects.
Direct translation of the Go switch on the requested engine name. -/
def MakeEngine (h : Host) (e : String) : Except String Engine :=
  if e = dockerEngine then
    match h.lookPath dockerEngine with
    | some binaryPath => Except.ok { Name := dockerEngine, Binary := binaryPath }
    | none => Except.error "docker binary not found in PATH"
  else if e = podmanEngine then
    match h.lookPath podmanEngine with
    | some binaryPath => Except.ok { Name := podmanEngine, Binary := binaryPath }
    | none => Except.error "podman binary not found in PATH"
  else if e = autodetectEngine then
    if h.probeOK then
      if strContains (strToLower h.probeOut) dockerEngine then
        Except.ok { Name := dockerEngine, Binary := fixedDockerBinaryPath }
      else if strContains (strToLower h.probeOut) podmanEngine then
        Except.ok { Name := podmanEngine, Binary := fixedDockerBinaryPath }
      else
        Except.error ("could not detect engine version: " ++ h.probeOut)
    else
      Except.error ("could not detect engine version: " ++ h.probeOut)
  else if e = kubernetesEngine then
    match h.kubeErr with
    | some err => Except.error err
    | none => Except.ok { Name := kubernetesEngine, Binary := "" }
  else
    Except.error "unsupported container engine"

/-! ## FreeBSD command -/

/-- The freebsd OS name constant. -/
def freebsdOS : String := "freebsd"

/-- Default image reference for the FreeBSD amd64 arch. -/
def freebsdImageAmd64 : String := "fyneio/fyne-cross-images:freebsd-amd64"

/-- Default image reference for the FreeBSD arm64 arch. -/
def freebsdImageArm64 : String := "fyneio/fyne-cross-images:freebsd-arm64"

/-- The two architectures of `freebsdArchSupported`; `targetArchFromFlag`
validates the requested list against it, so only these reach the per-arch
switch of `setupContainerImages`. -/
inductive Architecture where
  | amd64
  | arm64
deriving Repr, DecidableEq

def Architecture.toString : Architecture → String
  | Architecture.amd64 => "amd64"
  | Architecture.arm64 => "arm64"

/-- Build context fields used by the freebsd command. Path roots are modelled
from the spec: container-side work, temp and output/bin directory roots
(`WorkDirContainer()`, `TmpDirContainer()`, `BinDirContainer()` are outside
the given sources). `Env` is the global environment-override map. -/
structure Context where
  Name : String
  Release : Bool
  Volume : String
  Env : String → Option String
  WorkDirContainer : String
  TmpDirContainer : String
  BinDirContainer : String

/-- Per-architecture build descriptor: the factory `createContainerImage` is
outside the given sources; modelled from the spec as a descriptor carrying
the target OS and architecture, the image reference and a mutable
environment mapping set during construction. -/
structure ContainerImage where
  arch : Architecture
  os : String
  imageRef : String
  env : String → Option String

/-- SetEnv records one environment variable on the image. -/
def ContainerImage.SetEnv (i : ContainerImage) (k v : String) : ContainerImage :=
  { i with env := fun q => if q = k then some v else i.env q }

/-- Modelled from the spec: the identity token of a ContainerImage is derived
from OS+arch (example tokens "freebsd-amd64", "freebsd-arm64") and namespaces
container-side temporary and output paths. -/
def ContainerImage.ID (i : ContainerImage) : String := i.os ++ "-" ++ i.arch.toString

/-- Modelled from the spec: the factory produces a descriptor with the given
architecture, OS tag and image reference, and an empty environment mapping. -/
def createContainerImage (arch : Architecture) (os : String) (imageRef : String) :
    ContainerImage :=
  { arch := arch, os := os, imageRef := imageRef, env := fun _ => none }

/-- Modelled from the spec: an image reference supplied by configuration is
used verbatim, otherwise the built-in default is selected. -/
def overrideDockerImage (flagImage : Option String) (dflt : String) : String :=
  flagImage.getD dflt

/-- Per-architecture body of the `setupContainerImages` loop: direct
translation of the Go switch over the target architecture, including the
order of the `SetEnv` calls and the conditional CGO_LDFLAGS handling. The
host architecture (`runtime.GOARCH`) is passed explicitly. -/
def freebsdSetupImage (hostArch : String) (ctx : Context) (flagImage : Option String) :
    Architecture → ContainerImage
  | Architecture.amd64 =>
    let image := createContainerImage Architecture.amd64 freebsdOS
      (overrideDockerImage flagImage freebsdImageAmd64)
    let image := image.SetEnv "GOARCH" "amd64"
    let image := image.SetEnv "CC" "clang --sysroot=/freebsd --target=x86_64-unknown-freebsd12"
    let image := image.SetEnv "CXX" "clang++ --sysroot=/freebsd --target=x86_64-unknown-freebsd12"
    let image :=
      if hostArch = Architecture.arm64.toString then
        match ctx.Env "CGO_LDFLAGS" with
        | some v => image.SetEnv "CGO_LDFLAGS" (v ++ " -fuse-ld=lld")
        | none => image.SetEnv "CGO_LDFLAGS" "-fuse-ld=lld"
      else image
    image.SetEnv "GOOS" "freebsd"
  | Architecture.arm64 =>
    let image := createContainerImage Architecture.arm64 freebsdOS
      (overrideDockerImage flagImage freebsdImageArm64)
    let image := image.SetEnv "GOARCH" "arm64"
    let image :=
      match ctx.Env "CGO_LDFLAGS" with
      | some v => image.SetEnv "CGO_LDFLAGS" (v ++ " -fuse-ld=lld")
      | none => image.SetEnv "CGO_LDFLAGS" "-fuse-ld=lld"
    let image := image.SetEnv "CC" "clang --sysroot=/freebsd --target=aarch64-unknown-freebsd12"
    let image := image.SetEnv "CXX" "clang++ --sysroot=/freebsd --target=aarch64-unknown-freebsd12"
    image.SetEnv "GOOS" "freebsd"

/-- The per-target loop of `setupContainerImages`: one image per requested
architecture, in order. -/
def setupContainerImages (hostArch : String) (ctx : Context) (flagImage : Option String)
    (targetArch : List Architecture) : List ContainerImage :=
  targetArch.map (freebsdSetupImage hostArch ctx flagImage)

/-- Modelled from the spec: `volume.JoinPathContainer` is outside the given
sources; per the spec it is pure string joining for container-side paths,
joining the components with the container path separator. -/
def JoinPathContainer : List String → String
  | [] => ""
  | [p] => p
  | p :: ps => p ++ "/" ++ JoinPathContainer ps

/-- The artifact file name computed at the top of `Build`:
`fmt.Sprintf("%s.tar.xz", cmd.defaultContext.Name)`. -/
def packageFileName (ctx : Context) : String := ctx.Name ++ ".tar.xz"

/-- Destination of the in-container `mv` (the Relocate step): the temp dir
joined with the image identity token and the package name. -/
def relocateDest (ctx : Context) (imageID : String) : String :=
  JoinPathContainer [ctx.TmpDirContainer, imageID, packageFileName ctx]

/-- Working directory of the in-container `tar -xf` (the Extract step): the
bin dir joined with the image identity token. -/
def extractWorkDir (ctx : Context) (imageID : String) : String :=
  JoinPathContainer [ctx.BinDirContainer, imageID]

/-- One observable external call issued by `Build`. -/
inductive BuildCall where
  | prepareIcon
  | fynePackage
  | fyneRelease
  | run (workDir : Option String) (args : List String)
deriving Repr, DecidableEq

/-- Outcome oracle for the external collaborators `Build` invokes:
`prepareIcon`, `fynePackage`, `fyneRelease` and the in-container `image.Run`
(keyed by the command argument list); `some` is an error message, `none`
is success. -/
structure BuildOutcomes where
  prepareIconErr : Option String
  packageErr : Option String
  releaseErr : Option String
  runErr : List String → Option String

/-- Direct translation of `freeBSD.Build`, returning the result together with
the trace of external calls issued. The source checks the errors of
`prepareIcon` and of `fyneRelease`/`fynePackage`, but discards the error
results of both `image.Run` invocations (the `mv` relocate and the `tar -xf`
extract) and returns the package name unconditionally after them. -/
def Build (ctx : Context) (imageID : String) (o : BuildOutcomes) :
    (String × Option String) × List BuildCall :=
  let packageName := packageFileName ctx
  match o.prepareIconErr with
  | some err => (("", some err), [BuildCall.prepareIcon])
  | none =>
    let pkgCall := if ctx.Release then BuildCall.fyneRelease else BuildCall.fynePackage
    let pkgErr := if ctx.Release then o.releaseErr else o.packageErr
    match pkgErr with
    | some err =>
      (("", some ("could not package the Fyne app: " ++ err)),
        [BuildCall.prepareIcon, pkgCall])
    | none =>
      let mvArgs := ["mv",
        JoinPathContainer [ctx.WorkDirContainer, packageName],
        relocateDest ctx imageID]
      let tarArgs := ["tar", "-xf",
        relocateDest ctx imageID,
        "--strip-components=3", "usr/local/bin"]
      let _mvResult := o.runErr mvArgs
      let _tarResult := o.runErr tarArgs
      ((packageName, none),
        [BuildCall.prepareIcon, pkgCall,
          BuildCall.run none mvArgs,
          BuildCall.run (some (extractWorkDir ctx imageID)) tarArgs])

/-! ## Path-overlap predicates -/

/-- Path `p` lies over `q`: either the same path, or `q` is inside the
directory `p` (string prefix once a separator is appended). -/
def isPathPrefixOf (p q : String) : Bool :=
  p = q || isPrefixOfB (p ++ "/").data q.data

/-- Two container paths overlap when one lies over the other. -/
def pathsOverlap (p q : String) : Bool := isPathPrefixOf p q || isPathPrefixOf q p

/-! ## Concrete values used by witnesses and counterexamples -/

/-- Sample build context with no environment overrides. -/
def sampleCtx : Context :=
  { Name := "app", Release := false, Volume := "vol",
    Env := fun _ => none,
    WorkDirContainer := "/app", TmpDirContainer := "/app/tmp",
    BinDirContainer := "/app/bin" }

/-- Sample build context whose CGO_LDFLAGS override is already set. -/
def ctxExisting : Context :=
  { sampleCtx with Env := fun k => if k = "CGO_LDFLAGS" then some "-existing" else none }

/-- Host whose version probe answers like a docker installation. -/
def hostDocker : Host :=
  { lookPath := fun _ => none, probeOut := "Docker version 24.0.5",
    probeOK := true, kubeErr := none }

/-- Host with docker on the PATH. -/
def hostExplicit : Host :=
  { lookPath := fun n => if n = "docker" then some "/usr/local/bin/docker" else none,
    probeOut := "", probeOK := false, kubeErr := none }

/-- Host with a reachable kubernetes cluster. -/
def hostKube : Host :=
  { lookPath := fun _ => some "/usr/bin/true", probeOut := "",
    probeOK := false, kubeErr := none }

/-- Outcomes where the preparation and packaging collaborators succeed but
every in-container Run command fails. -/
def allRunsFail : BuildOutcomes :=
  { prepareIconErr := none, packageErr := none, releaseErr := none,
    runErr := fun _ => some "exit status 1" }

/-- Outcomes where every collaborator succeeds. -/
def allOK : BuildOutcomes :=
  { prepareIconErr := none, packageErr := none, releaseErr := none,
    runErr := fun _ => none }

/-- Outcomes where icon preparation fails. -/
def prepFails : BuildOutcomes :=
  { prepareIconErr := some "icon missing", packageErr := none, releaseErr := none,
    runErr := fun _ => none }

/-- Outcomes where packaging fails. -/
def packageFails : BuildOutcomes :=
  { prepareIconErr := none, packageErr := some "go build failed",
    releaseErr := some "go build failed", runErr := fun _ => none }

/-! ## Helper lemmas -/

theorem isPrefixOfB_eq {a b : List Char} : isPrefixOfB a b = true ↔ a <+: b := by
  induction a generalizing b with
  | nil => simp [isPrefixOfB]
  | cons c as ih =>
    cases b with
    | nil => simp [isPrefixOfB]
    | cons d bs =>
      simp [isPrefixOfB, Bool.and_eq_true, decide_eq_true_eq, ih,
        List.cons_prefix_cons]

theorem isPrefixOfB_eq_false {a b : List Char} (h : ¬ (a <+: b)) :
    isPrefixOfB a b = false := by
  cases hI : isPrefixOfB a b
  · rfl
  · exact absurd (isPrefixOfB_eq.1 hI) h

theorem strContains_of_suffix {s p : String} (h : p.data <:+ s.data) :
    strContains s p = true := by
  simp only [strContains, listContainsSub, List.any_eq_true]
  exact ⟨p.data, (List.mem_tails _ _).2 h, isPrefixOfB_eq.2 (List.prefix_refl _)⟩

theorem slashfree_sep {a b xs ys : List Char}
    (ha : ('/' : Char) ∉ a) (hb : ('/' : Char) ∉ b)
    (h : a ++ '/' :: xs <+: b ++ '/' :: ys) : a = b ∧ xs <+: ys := by
  induction a generalizing b with
  | nil =>
    cases b with
    | nil =>
      simp only [List.nil_append] at h
      exact ⟨rfl, (List.cons_prefix_cons.1 h).2⟩
    | cons d bs =>
      simp only [List.nil_append, List.cons_append] at h
      rcases List.cons_prefix_cons.1 h with ⟨h1, _⟩
      subst h1
      exact absurd (List.mem_cons_self _ _) hb
  | cons c as ih =>
    cases b with
    | nil =>
      simp only [List.cons_append, List.nil_append] at h
      rcases List.cons_prefix_cons.1 h with ⟨h1, _⟩
      rw [h1] at ha
      exact absurd (List.mem_cons_self _ _) ha
    | cons d bs =>
      simp only [List.cons_append] at h
      rcases List.cons_prefix_cons.1 h with ⟨h1, h2⟩
      subst h1
      have ha2 : ('/' : Char) ∉ as := fun hm => ha (List.mem_cons_of_mem _ hm)
      have hb2 : ('/' : Char) ∉ bs := fun hm => hb (List.mem_cons_of_mem _ hm)
      rcases ih ha2 hb2 h2 with ⟨he, hp⟩
      exact ⟨by rw [he], hp⟩

theorem slashfree_sep_eq {a b xs ys : List Char}
    (ha : ('/' : Char) ∉ a) (hb : ('/' : Char) ∉ b)
    (h : a ++ '/' :: xs = b ++ '/' :: ys) : a = b ∧ xs = ys := by
  have hp : a ++ '/' :: xs <+: b ++ '/' :: ys := by
    rw [h]
  rcases slashfree_sep ha hb hp with ⟨he, _⟩
  subst he
  have h2 := List.append_cancel_left h
  injection h2 with _ h3
  exact ⟨rfl, h3⟩

theorem prefixTotal {l₁ l₂ l₃ : List Char} (h1 : l₁ <+: l₃) (h2 : l₂ <+: l₃) :
    l₁ <+: l₂ ∨ l₂ <+: l₁ :=
  List.prefix_or_prefix_of_prefix h1 h2

theorem stepDown {t b : List Char} (h : t ++ ['/'] <+: b ++ ['/']) :
    t = b ∨ t ++ ['/'] <+: b := by
  rcases Nat.lt_or_ge t.length b.length with hl | hl
  · right
    have h1 : t ++ ['/'] = (b ++ ['/']).take (t.length + 1) := by
      have h2 := List.prefix_iff_eq_take.mp h
      simpa using h2
    have h3 : (b ++ ['/']).take (t.length + 1) = b.take (t.length + 1) :=
      List.take_append_of_le_length hl
    rw [h1, h3]
    exact List.take_prefix _ _
  · left
    have hle : (t ++ ['/']).length ≤ (b ++ ['/']).length := h.length_le
    have hlen : t.length = b.length := by
      simp only [List.length_append, List.length_singleton] at hle
      omega
    have he : t ++ ['/'] = b ++ ['/'] :=
      List.IsPrefix.eq_of_length h (by simp [hlen])
    exact List.append_cancel_right he

theorem rootSep {t b : List Char} (hne : t ≠ b)
    (h1 : ¬ (t ++ ['/'] <+: b)) (h2 : ¬ (b ++ ['/'] <+: t))
    (u v : List Char) : ¬ (t ++ '/' :: u <+: b ++ '/' :: v) := by
  intro h
  have hstep : t ++ ['/'] <+: t ++ '/' :: u :=
    ⟨u, by rw [List.append_assoc, List.singleton_append]⟩
  have ht : t ++ ['/'] <+: b ++ '/' :: v := hstep.trans h
  have hb : b ++ ['/'] <+: b ++ '/' :: v :=
    ⟨v, by rw [List.append_assoc, List.singleton_append]⟩
  rcases prefixTotal ht hb with hc | hc
  · rcases stepDown hc with he | hp
    · exact hne he
    · exact h1 hp
  · rcases stepDown hc with he | hp
    · exact hne he.symm
    · exact h2 hp

theorem sameRootSep {t a b : List Char} (hne : a ≠ b)
    (ha : ('/' : Char) ∉ a) (hb : ('/' : Char) ∉ b) (xs ys : List Char) :
    ¬ (t ++ '/' :: (a ++ '/' :: xs) <+: t ++ '/' :: (b ++ '/' :: ys)) := by
  intro h
  have h2 := ( List.prefix_append_right_inj t).1 h
  rcases List.cons_prefix_cons.1 h2 with ⟨_, h3⟩
  exact hne (slashfree_sep ha hb h3).1

theorem sameRootNe {t a b xs ys : List Char} (hne : a ≠ b)
    (ha : ('/' : Char) ∉ a) (hb : ('/' : Char) ∉ b) :
    t ++ '/' :: (a ++ '/' :: xs) ≠ t ++ '/' :: (b ++ '/' :: ys) := by
  intro h
  have h2 := List.append_cancel_left h
  injection h2 with _ h3
  exact hne (slashfree_sep_eq ha hb h3).1

theorem sameRootNe2 {t a b : List Char} (hne : a ≠ b) :
    t ++ '/' :: a ≠ t ++ '/' :: b := by
  intro h
  have h2 := List.append_cancel_left h
  injection h2 with _ h3
  exact hne h3

theorem slashEndSep {t a b : List Char} (hb : ('/' : Char) ∉ b) :
    ¬ (t ++ '/' :: (a ++ ['/']) <+: t ++ '/' :: b) := by
  intro h
  have h2 := ( List.prefix_append_right_inj t).1 h
  rcases List.cons_prefix_cons.1 h2 with ⟨_, h3⟩
  rcases h3 with ⟨w, hw⟩
  apply hb
  rw [← hw]
  simp

theorem pathsOverlap_eq_false {p q : String} (h1 : p.data ≠ q.data)
    (h2 : ¬ (p.data ++ ['/'] <+: q.data)) (h3 : ¬ (q.data ++ ['/'] <+: p.data)) :
    pathsOverlap p q = false := by
  have hpq : p ≠ q := fun he => h1 (congrArg String.data he)
  have e2 : (p ++ "/").data = p.data ++ ['/'] := by rw [String.data_append]
  have e3 : (q ++ "/").data = q.data ++ ['/'] := by rw [String.data_append]
  simp only [pathsOverlap, isPathPrefixOf, e2, e3]
  rw [decide_eq_false hpq, decide_eq_false (Ne.symm hpq),
    isPrefixOfB_eq_false h2, isPrefixOfB_eq_false h3]
  rfl

theorem pathsOverlap_false_parts {p q : String} (h : pathsOverlap p q = false) :
    p.data ≠ q.data ∧ ¬ (p.data ++ ['/'] <+: q.data) ∧
      ¬ (q.data ++ ['/'] <+: p.data) := by
  have e2 : (p ++ "/").data = p.data ++ ['/'] := by rw [String.data_append]
  have e3 : (q ++ "/").data = q.data ++ ['/'] := by rw [String.data_append]
  simp only [pathsOverlap, isPathPrefixOf, e2, e3, Bool.or_eq_false_iff] at h
  obtain ⟨⟨e1, f1⟩, e4, f2⟩ := h
  refine ⟨fun hd => of_decide_eq_false e1 (String.ext hd), fun hp => ?_, fun hp => ?_⟩
  · rw [isPrefixOfB_eq.2 hp] at f1
    exact absurd f1 (by decide)
  · rw [isPrefixOfB_eq.2 hp] at f2
    exact absurd f2 (by decide)

/-! ## Theorems: engine resolver -/

/-- C2: autodetection (MakeEngine applied to the empty string) is a
deterministic case analysis on the lowercased output of invoking the fixed
docker path with a version query: output containing "docker" resolves to the
docker engine at the fixed path; otherwise output containing "podman"
resolves to the podman engine at the fixed path; otherwise, or when the
probe invocation itself fails, a detection-failed error and no engine. The
result depends on nothing but the probe fields of the host. -/
theorem makeEngine_autodetect_cases (h : Host) :
    (h.probeOK = true →
      MakeEngine h autodetectEngine =
        if strContains (strToLower h.probeOut) dockerEngine then
          Except.ok { Name := dockerEngine, Binary := fixedDockerBinaryPath }
        else if strContains (strToLower h.probeOut) podmanEngine then
          Except.ok { Name := podmanEngine, Binary := fixedDockerBinaryPath }
        else Except.error ("could not detect engine version: " ++ h.probeOut)) ∧
    (h.probeOK = false →
      MakeEngine h autodetectEngine =
        Except.error ("could not detect engine version: " ++ h.probeOut)) ∧
    (∀ g : Host, g.probeOut = h.probeOut → g.probeOK = h.probeOK →
      MakeEngine g autodetectEngine = MakeEngine h autodetectEngine) := by
  refine ⟨fun hp => ?_, fun hp => ?_, fun g h1 h2 => ?_⟩
  · simp [MakeEngine, autodetectEngine, dockerEngine, podmanEngine, kubernetesEngine, hp]
  · simp [MakeEngine, autodetectEngine, dockerEngine, podmanEngine, kubernetesEngine, hp]
  · simp [MakeEngine, autodetectEngine, dockerEngine, podmanEngine, kubernetesEngine,
      h1, h2]

/-- Witness for makeEngine_autodetect_cases: a docker-style probe output
resolves to the docker engine at the fixed path. -/
theorem makeEngine_autodetect_cases_witness :
    MakeEngine hostDocker autodetectEngine =
      Except.ok { Name := dockerEngine, Binary := fixedDockerBinaryPath } := by
  have h := (makeEngine_autodetect_cases hostDocker).1 rfl
  rw [h]
  have hc : strContains (strToLower hostDocker.probeOut) dockerEngine = true := by decide
  rw [if_pos hc]

/-- C4: for an explicitly requested docker or podman token, MakeEngine either
returns an engine whose name equals exactly the requested token, with the
binary found by the executable lookup, or a not-found error when the lookup
fails; every engine it returns is named as requested, never a fallback. -/
theorem makeEngine_explicit_no_fallback (h : Host) (e : String)
    (he : e = dockerEngine ∨ e = podmanEngine) :
    (∀ p, h.lookPath e = some p →
      MakeEngine h e = Except.ok { Name := e, Binary := p }) ∧
    (h.lookPath e = none →
      MakeEngine h e = Except.error (e ++ " binary not found in PATH")) ∧
    (∀ eng, MakeEngine h e = Except.ok eng → eng.Name = e) := by
  rcases he with rfl | rfl
  · refine ⟨fun p hp => ?_, fun hp => ?_, fun eng heng => ?_⟩
    · simp only [dockerEngine] at hp
      simp [MakeEngine, dockerEngine, hp]
    · simp only [dockerEngine] at hp
      simp [MakeEngine, dockerEngine, hp]
    · rcases hl : h.lookPath "docker" with _ | q <;>
        simp [MakeEngine, dockerEngine, hl] at heng
      rw [← heng]
      rfl
  · refine ⟨fun p hp => ?_, fun hp => ?_, fun eng heng => ?_⟩
    · simp only [podmanEngine] at hp
      simp [MakeEngine, dockerEngine, podmanEngine, hp]
    · simp only [podmanEngine] at hp
      simp [MakeEngine, dockerEngine, podmanEngine, hp]
    · rcases hl : h.lookPath "podman" with _ | q <;>
        simp [MakeEngine, dockerEngine, podmanEngine, hl] at heng
      rw [← heng]
      rfl

/-- Witness for makeEngine_explicit_no_fallback: docker requested and found
on the PATH. -/
theorem makeEngine_explicit_no_fallback_witness :
    MakeEngine hostExplicit dockerEngine =
      Except.ok { Name := dockerEngine, Binary := "/usr/local/bin/docker" } :=
  (makeEngine_explicit_no_fallback hostExplicit dockerEngine (Or.inl rfl)).1
    "/usr/local/bin/docker" (by decide)

/-- C8: every engine returned without error has an empty binary path exactly
when its name is the kubernetes token; docker and podman engines carry a
non-empty executable path (the host lookup yields non-empty paths), and a
kubernetes engine is returned only when the cluster client check succeeds. -/
theorem engine_binary_empty_iff_kubernetes (h : Host) (e : String) (eng : Engine)
    (hpath : ∀ n p, h.lookPath n = some p → p ≠ "")
    (hok : MakeEngine h e = Except.ok eng) :
    (eng.Binary = "" ↔ eng.Name = kubernetesEngine) ∧
    (eng.Name = kubernetesEngine →
      h.kubeErr = none ∧ eng = { Name := kubernetesEngine, Binary := "" }) := by
  unfold MakeEngine at hok
  split at hok
  · rcases hl : h.lookPath dockerEngine with _ | p <;> rw [hl] at hok
    · cases hok
    · cases hok
      refine ⟨?_, ?_⟩
      · simp [dockerEngine, kubernetesEngine, hpath _ _ hl]
      · simp [dockerEngine, kubernetesEngine]
  · split at hok
    · rcases hl : h.lookPath podmanEngine with _ | p <;> rw [hl] at hok
      · cases hok
      · cases hok
        refine ⟨?_, ?_⟩
        · simp [podmanEngine, kubernetesEngine, hpath _ _ hl]
        · simp [podmanEngine, kubernetesEngine]
    · split at hok
      · split at hok
        · split at hok
          · cases hok
            refine ⟨?_, ?_⟩
            · simp [dockerEngine, kubernetesEngine, fixedDockerBinaryPath]
            · simp [dockerEngine, kubernetesEngine]
          · split at hok
            · cases hok
              refine ⟨?_, ?_⟩
              · simp [podmanEngine, kubernetesEngine, fixedDockerBinaryPath]
              · simp [podmanEngine, kubernetesEngine]
            · cases hok
        · cases hok
      · split at hok
        · rcases hk : h.kubeErr with _ | err <;> rw [hk] at hok
          · cases hok
            exact ⟨by simp, fun _ => ⟨rfl, rfl⟩⟩
          · cases hok
        · cases hok

/-- Witness for engine_binary_empty_iff_kubernetes at a host with a
reachable cluster and non-empty lookup paths. -/
theorem engine_binary_empty_iff_kubernetes_witness :
    (({ Name := kubernetesEngine, Binary := "" } : Engine).Binary = "" ↔
      ({ Name := kubernetesEngine, Binary := "" } : Engine).Name = kubernetesEngine) ∧
    (({ Name := kubernetesEngine, Binary := "" } : Engine).Name = kubernetesEngine →
      hostKube.kubeErr = none ∧
      ({ Name := kubernetesEngine, Binary := "" } : Engine) =
        { Name := kubernetesEngine, Binary := "" }) :=
  engine_binary_empty_iff_kubernetes hostKube kubernetesEngine
    { Name := kubernetesEngine, Binary := "" }
    (fun n p hp => by
      have hq : hostKube.lookPath n = some "/usr/bin/true" := rfl
      rw [hq] at hp
      injection hp with hp2
      rw [← hp2]
      decide)
    rfl

/-! ## Theorems: freebsd Build -/

/-- C5: when icon preparation fails, Build returns the error unchanged with
an empty artifact name, and the call trace is exactly the prepareIcon call:
neither packaging nor any in-container command is invoked. -/
theorem build_prepare_failure_aborts (ctx : Context) (imageID : String)
    (o : BuildOutcomes) (e : String) (h : o.prepareIconErr = some e) :
    Build ctx imageID o = (("", some e), [BuildCall.prepareIcon]) := by
  simp [Build, h]

/-- Witness for build_prepare_failure_aborts. -/
theorem build_prepare_failure_aborts_witness :
    Build sampleCtx "freebsd-amd64" prepFails =
      (("", some "icon missing"), [BuildCall.prepareIcon]) :=
  build_prepare_failure_aborts sampleCtx "freebsd-amd64" prepFails "icon missing" rfl

/-- C6: when the packaging step fails (fyneRelease in release mode,
fynePackage otherwise), Build returns an empty artifact name and an error
wrapping the packaging failure with added context, and the trace stops at
the packaging call: the Relocate and Extract commands are not executed. -/
theorem build_package_failure_aborts (ctx : Context) (imageID : String)
    (o : BuildOutcomes) (e : String)
    (hprep : o.prepareIconErr = none)
    (hpkg : (if ctx.Release then o.releaseErr else o.packageErr) = some e) :
    Build ctx imageID o =
      (("", some ("could not package the Fyne app: " ++ e)),
        [BuildCall.prepareIcon,
          if ctx.Release then BuildCall.fyneRelease else BuildCall.fynePackage]) := by
  rcases hR : ctx.Release <;> rw [hR] at hpkg <;> simp at hpkg <;>
    simp [Build, hprep, hR, hpkg]

/-- Witness for build_package_failure_aborts in build (non-release) mode. -/
theorem build_package_failure_aborts_witness :
    Build sampleCtx "freebsd-amd64" packageFails =
      (("", some ("could not package the Fyne app: " ++ "go build failed")),
        [BuildCall.prepareIcon,
          if sampleCtx.Release then BuildCall.fyneRelease else BuildCall.fynePackage]) :=
  build_package_failure_aborts sampleCtx "freebsd-amd64" packageFails "go build failed"
    rfl rfl

/-- C7: every Build invocation that reports no error returns the artifact
name derived from the context application name plus the fixed extension,
independent of the image identity. -/
theorem build_success_artifact_name (ctx : Context) (imageID : String)
    (o : BuildOutcomes) (h : (Build ctx imageID o).1.2 = none) :
    (Build ctx imageID o).1.1 = ctx.Name ++ ".tar.xz" := by
  rcases hp : o.prepareIconErr with _ | e
  · rcases hR : ctx.Release
    · rcases hk : o.packageErr with _ | e2
      · simp [Build, hp, hR, hk, packageFileName]
      · exfalso; simp [Build, hp, hR, hk] at h
    · rcases hk : o.releaseErr with _ | e2
      · simp [Build, hp, hR, hk, packageFileName]
      · exfalso; simp [Build, hp, hR, hk] at h
  · exfalso
    simp [Build, hp] at h

/-- Witness for build_success_artifact_name. -/
theorem build_success_artifact_name_witness :
    (Build sampleCtx "freebsd-arm64" allOK).1.1 = sampleCtx.Name ++ ".tar.xz" :=
  build_success_artifact_name sampleCtx "freebsd-arm64" allOK rfl

/-- C1 fails on the code: with icon preparation and packaging succeeding and
every in-container Run command failing, Build still reports success — the
source discards the error results of the Relocate (mv) and Extract (tar)
invocations. This theorem evaluates the embedded Build at such an input:
both commands are issued, their outcomes are failures, and Build returns
the artifact name with no error. -/
theorem build_swallows_run_failures :
    allRunsFail.runErr ["mv",
        JoinPathContainer [sampleCtx.WorkDirContainer, packageFileName sampleCtx],
        relocateDest sampleCtx "freebsd-amd64"] = some "exit status 1" ∧
    allRunsFail.runErr ["tar", "-xf", relocateDest sampleCtx "freebsd-amd64",
        "--strip-components=3", "usr/local/bin"] = some "exit status 1" ∧
    BuildCall.run none ["mv",
        JoinPathContainer [sampleCtx.WorkDirContainer, packageFileName sampleCtx],
        relocateDest sampleCtx "freebsd-amd64"]
      ∈ (Build sampleCtx "freebsd-amd64" allRunsFail).2 ∧
    BuildCall.run (some (extractWorkDir sampleCtx "freebsd-amd64"))
        ["tar", "-xf", relocateDest sampleCtx "freebsd-amd64",
          "--strip-components=3", "usr/local/bin"]
      ∈ (Build sampleCtx "freebsd-amd64" allRunsFail).2 ∧
    (Build sampleCtx "freebsd-amd64" allRunsFail).1 = ("app.tar.xz", none) := by
  refine ⟨rfl, rfl, ?_, ?_, rfl⟩ <;> decide

/-! ## Theorems: setupContainerImages linker-flag handling -/

/-- C3 as stated fails on the code: from an arm64 host targeting arm64, the
claimed condition (host differs from arm64 and target is arm64, or host is
arm64 and target is amd64) is false, yet the lld flag is added to the arm64
image CGO_LDFLAGS — the arm64-target branch appends it unconditionally. -/
theorem lldflag_claim_counterexample :
    (freebsdSetupImage "arm64" sampleCtx none Architecture.arm64).env "CGO_LDFLAGS" =
      some "-fuse-ld=lld" ∧
    ¬ ((("arm64" : String) ≠ "arm64" ∧ Architecture.arm64 = Architecture.arm64) ∨
        (("arm64" : String) = "arm64" ∧ Architecture.arm64 = Architecture.amd64)) := by
  constructor
  · rfl
  · decide

/-- C3 amended: the lld linker flag is added to the image CGO_LDFLAGS exactly
when the target is arm64 — unconditionally, whatever the host — or when the
host is arm64 and the target is amd64; when added it is appended to the value
from the shared context environment rather than overwriting it, so a
preexisting "-existing" yields "-existing -fuse-ld=lld". -/
theorem lldflag_added_iff (hostArch : String) (ctx : Context) (ov : Option String)
    (arch : Architecture) :
    ((freebsdSetupImage hostArch ctx ov arch).env "CGO_LDFLAGS" =
      if arch = Architecture.arm64 ∨ (hostArch = "arm64" ∧ arch = Architecture.amd64) then
        some ((ctx.Env "CGO_LDFLAGS").elim "-fuse-ld=lld" (fun v => v ++ " -fuse-ld=lld"))
      else none) ∧
    (ctx.Env "CGO_LDFLAGS" = some "-existing" →
      (arch = Architecture.arm64 ∨ (hostArch = "arm64" ∧ arch = Architecture.amd64)) →
      (freebsdSetupImage hostArch ctx ov arch).env "CGO_LDFLAGS" =
        some "-existing -fuse-ld=lld") := by
  have h1 : (freebsdSetupImage hostArch ctx ov arch).env "CGO_LDFLAGS" =
      if arch = Architecture.arm64 ∨ (hostArch = "arm64" ∧ arch = Architecture.amd64) then
        some ((ctx.Env "CGO_LDFLAGS").elim "-fuse-ld=lld" (fun v => v ++ " -fuse-ld=lld"))
      else none := by
    cases arch
    · by_cases hh : hostArch = "arm64"
      · rcases hE : ctx.Env "CGO_LDFLAGS" with _ | v <;>
          simp [freebsdSetupImage, ContainerImage.SetEnv, createContainerImage,
            Architecture.toString, hh, hE]
      · simp [freebsdSetupImage, ContainerImage.SetEnv, createContainerImage,
          Architecture.toString, hh]
    · rcases hE : ctx.Env "CGO_LDFLAGS" with _ | v <;>
        simp [freebsdSetupImage, ContainerImage.SetEnv, createContainerImage,
          Architecture.toString, hE]
  refine ⟨h1, fun hE hc => ?_⟩
  rw [h1, if_pos hc, hE]
  rfl

/-- Witness for lldflag_added_iff: amd64 host, arm64 target, preexisting
flags preserved. -/
theorem lldflag_added_iff_witness :
    (freebsdSetupImage "amd64" ctxExisting none Architecture.arm64).env "CGO_LDFLAGS" =
      some "-existing -fuse-ld=lld" :=
  (lldflag_added_iff "amd64" ctxExisting none Architecture.arm64).2 rfl (Or.inl rfl)

/-- C10: a setupContainerImages run whose target list includes arm64 produces
an arm64 image whose CGO_LDFLAGS is set and carries the lld flag regardless
of the host architecture, with the prior value taken from the shared context
environment when present. -/
theorem arm64_image_cgo_ldflags (hostArch : String) (ctx : Context) (ov : Option String)
    (targets : List Architecture) (hmem : Architecture.arm64 ∈ targets) :
    ∃ image ∈ setupContainerImages hostArch ctx ov targets,
      image.arch = Architecture.arm64 ∧
      image.env "CGO_LDFLAGS" =
        some ((ctx.Env "CGO_LDFLAGS").elim "-fuse-ld=lld" (fun v => v ++ " -fuse-ld=lld")) ∧
      (∀ v, image.env "CGO_LDFLAGS" = some v → strContains v "-fuse-ld=lld" = true) := by
  refine ⟨freebsdSetupImage hostArch ctx ov Architecture.arm64,
    List.mem_map_of_mem _ hmem, ?_, ?_, ?_⟩
  · cases hE : ctx.Env "CGO_LDFLAGS" <;>
      simp [freebsdSetupImage, ContainerImage.SetEnv, createContainerImage, hE]
  · cases hE : ctx.Env "CGO_LDFLAGS" <;>
      simp [freebsdSetupImage, ContainerImage.SetEnv, createContainerImage, hE]
  · intro v hv
    rcases hE : ctx.Env "CGO_LDFLAGS" with _ | w <;>
      simp [freebsdSetupImage, ContainerImage.SetEnv, createContainerImage, hE] at hv <;>
      rw [← hv]
    · exact strContains_of_suffix (List.suffix_refl _)
    · refine strContains_of_suffix ?_
      have hs : ("-fuse-ld=lld" : String).data <:+ (" -fuse-ld=lld" : String).data :=
        ⟨[' '], rfl⟩
      have ha : (" -fuse-ld=lld" : String).data <:+ (w ++ " -fuse-ld=lld").data := by
        rw [String.data_append]
        exact List.suffix_append _ _
      exact hs.trans ha

/-- C9: two Build invocations for images with distinct slash-free identity
tokens use pairwise non-overlapping Relocate destination paths and Extract
working directories, given that the container-side temp and bin roots
themselves do not overlap. -/
theorem build_paths_disjoint (ctx : Context) (id1 id2 : String) (hne : id1 ≠ id2)
    (h1 : ('/' : Char) ∉ id1.data) (h2 : ('/' : Char) ∉ id2.data)
    (hroots : pathsOverlap ctx.TmpDirContainer ctx.BinDirContainer = false) :
    pathsOverlap (relocateDest ctx id1) (relocateDest ctx id2) = false ∧
    pathsOverlap (extractWorkDir ctx id1) (extractWorkDir ctx id2) = false ∧
    pathsOverlap (relocateDest ctx id1) (extractWorkDir ctx id2) = false ∧
    pathsOverlap (extractWorkDir ctx id1) (relocateDest ctx id2) = false := by
  obtain ⟨r1, r2, r3⟩ := pathsOverlap_false_parts hroots
  have hd : id1.data ≠ id2.data := fun hq => hne (String.ext hq)
  have hsl : ("/" : String).data = ['/'] := rfl
  have dr : ∀ s : String, (relocateDest ctx s).data =
      ctx.TmpDirContainer.data ++ '/' :: (s.data ++ '/' :: (packageFileName ctx).data) := by
    intro s
    simp [relocateDest, JoinPathContainer, String.data_append, hsl,
      List.append_assoc, List.singleton_append]
  have de : ∀ s : String, (extractWorkDir ctx s).data =
      ctx.BinDirContainer.data ++ '/' :: s.data := by
    intro s
    simp [extractWorkDir, JoinPathContainer, String.data_append, hsl,
      List.append_assoc, List.singleton_append]
  refine ⟨pathsOverlap_eq_false ?_ ?_ ?_, pathsOverlap_eq_false ?_ ?_ ?_,
    pathsOverlap_eq_false ?_ ?_ ?_, pathsOverlap_eq_false ?_ ?_ ?_⟩
  · rw [dr, dr]
    exact sameRootNe hd h1 h2
  · rw [dr, dr]
    simp only [List.append_assoc, List.cons_append]
    exact sameRootSep hd h1 h2 _ _
  · rw [dr, dr]
    simp only [List.append_assoc, List.cons_append]
    exact sameRootSep (Ne.symm hd) h2 h1 _ _
  · rw [de, de]
    exact sameRootNe2 hd
  · rw [de, de]
    simp only [List.append_assoc, List.cons_append]
    exact slashEndSep h2
  · rw [de, de]
    simp only [List.append_assoc, List.cons_append]
    exact slashEndSep h1
  · intro he
    rw [dr, de] at he
    refine rootSep r1 r2 r3 (id1.data ++ '/' :: (packageFileName ctx).data) id2.data ?_
    rw [he]
  · rw [dr, de]
    simp only [List.append_assoc, List.cons_append]
    exact rootSep r1 r2 r3 _ _
  · rw [de, dr]
    simp only [List.append_assoc, List.cons_append]
    exact rootSep (Ne.symm r1) r3 r2 _ _
  · intro he
    rw [de, dr] at he
    refine rootSep (Ne.symm r1) r3 r2 id1.data
      (id2.data ++ '/' :: (packageFileName ctx).data) ?_
    rw [he]
  · rw [de, dr]
    simp only [List.append_assoc, List.cons_append]
    exact rootSep (Ne.symm r1) r3 r2 _ _
  · rw [dr, de]
    simp only [List.append_assoc, List.cons_append]
    exact rootSep r1 r2 r3 _ _

/-- Witness for build_paths_disjoint at the two freebsd identity tokens. -/
theorem build_paths_disjoint_witness :
    pathsOverlap (relocateDest sampleCtx "freebsd-amd64")
        (relocateDest sampleCtx "freebsd-arm64") = false ∧
    pathsOverlap (extractWorkDir sampleCtx "freebsd-amd64")
        (extractWorkDir sampleCtx "freebsd-arm64") = false ∧
    pathsOverlap (relocateDest sampleCtx "freebsd-amd64")
        (extractWorkDir sampleCtx "freebsd-arm64") = false ∧
    pathsOverlap (extractWorkDir sampleCtx "freebsd-amd64")
        (relocateDest sampleCtx "freebsd-arm64") = false :=
  build_paths_disjoint sampleCtx "freebsd-amd64" "freebsd-arm64" (by decide)
    (by decide) (by decide) (by decide)

/-- Witness for arm64_image_cgo_ldflags at a context with a preexisting
CGO_LDFLAGS value and an amd64 host. -/
theorem arm64_image_cgo_ldflags_witness :
    ∃ image ∈ setupContainerImages "amd64" ctxExisting none
        [Architecture.amd64, Architecture.arm64],
      image.arch = Architecture.arm64 ∧
      image.env "CGO_LDFLAGS" =
        some ((ctxExisting.Env "CGO_LDFLAGS").elim "-fuse-ld=lld"
          (fun v => v ++ " -fuse-ld=lld")) ∧
      (∀ v, image.env "CGO_LDFLAGS" = some v → strContains v "-fuse-ld=lld" = true) :=
  arm64_image_cgo_ldflags "amd64" ctxExisting none
    [Architecture.amd64, Architecture.arm64] (by decide)

end FyneCross
